import Mathlib

/-!
Verification development for the bookmark rendering engine
(`backend/app/services/bookmark_generator.py` and
`backend/app/core/config.py`).

The Python code is shallowly embedded: pure helpers become Lean
functions; Python `float` arithmetic on ratios is modelled over `ℚ`
(the code only ever forms ratios of machine integers and compares /
interpolates them, so the rational model is exact up to floating
round-off, which the code itself guards against by clamping);
Python `int(x)` truncation toward zero is `pyInt`; PIL images are
modelled by their pixel dimensions, which is the only attribute the
verified properties mention (PIL's `resize`/`crop` return images of
exactly the requested box size, and `ImageDraw` operations mutate
pixels, never dimensions).
-/

namespace Shuqian

/-- Python `int(x)` on a float/rational: truncation toward zero. -/
def pyInt (q : ℚ) : ℤ :=
  if q < 0 then ⌈q⌉ else ⌊q⌋

theorem pyInt_intCast (n : ℤ) : pyInt (n : ℚ) = n := by
  unfold pyInt
  split <;> simp

theorem pyInt_natCast (n : ℕ) : pyInt (n : ℚ) = n := by
  simpa using pyInt_intCast (n : ℤ)

/-- A validated 6-hex-digit color string `#d0 d1 d2 d3 d4 d5`
(the caller layer enforces `^#[0-9A-Fa-f]{6}$`). -/
structure HexColor where
  d0 : Fin 16
  d1 : Fin 16
  d2 : Fin 16
  d3 : Fin 16
  d4 : Fin 16
  d5 : Fin 16
  deriving DecidableEq, Repr

instance : Inhabited HexColor := ⟨⟨0, 0, 0, 0, 0, 0⟩⟩

/-- `BookmarkGenerator._hex_to_rgb`: strip `#`, parse the three
2-hex-digit substrings `hex[0:2]`, `hex[2:4]`, `hex[4:6]` in base 16. -/
def hex_to_rgb (c : HexColor) : ℤ × ℤ × ℤ :=
  (16 * (c.d0 : ℤ) + c.d1, 16 * (c.d2 : ℤ) + c.d3, 16 * (c.d4 : ℤ) + c.d5)

/-- `BookmarkGenerator._interpolate_color`: clamp `ratio` to `[0,1]`,
single color returns itself, otherwise map `ratio` onto the
`len(colors) - 1` segments and linearly interpolate channel-wise
between `colors[idx]` and `colors[min(idx + 1, len(colors) - 1)]`,
truncating each channel with Python `int()`.
Python list indexing is modelled with `List.getD _ default`; under the
clamp the indices are always in range. -/
def interpolate_color (colors : List HexColor) (ratio : ℚ) : ℤ × ℤ × ℤ :=
  let r := max 0 (min 1 ratio)
  if colors.length = 1 then
    hex_to_rgb (colors.getD 0 default)
  else
    let numSegments : ℕ := colors.length - 1
    let segment : ℚ := r * numSegments
    let idx : ℕ := (pyInt segment).toNat
    let localRatio : ℚ := segment - idx
    let color1 := hex_to_rgb (colors.getD idx default)
    let color2 := hex_to_rgb (colors.getD (min (idx + 1) (colors.length - 1)) default)
    (pyInt ((color1.1 : ℚ) + ((color2.1 : ℚ) - (color1.1 : ℚ)) * localRatio),
     pyInt ((color1.2.1 : ℚ) + ((color2.2.1 : ℚ) - (color1.2.1 : ℚ)) * localRatio),
     pyInt ((color1.2.2 : ℚ) + ((color2.2.2 : ℚ) - (color1.2.2 : ℚ)) * localRatio))

theorem interpolate_color_ratio_le_zero (colors : List HexColor) (hne : colors ≠ [])
    (ratio : ℚ) (hr : ratio ≤ 0) :
    interpolate_color colors ratio = hex_to_rgb (colors.getD 0 default) := by
  unfold interpolate_color
  have hclamp : max 0 (min 1 ratio) = 0 := by
    rcases le_total ratio 1 with h1 | h1
    · simp [min_eq_right h1, max_eq_left hr]
    · have : (1 : ℚ) ≤ 0 := le_trans h1 hr
      norm_num at this
  rw [hclamp]
  split
  · rfl
  · have hp0 : pyInt 0 = 0 := by unfold pyInt; norm_num
    simp [hp0, pyInt_intCast]

theorem interpolate_color_ratio_ge_one (colors : List HexColor) (hne : colors ≠ [])
    (ratio : ℚ) (hr : 1 ≤ ratio) :
    interpolate_color colors ratio = hex_to_rgb (colors.getLast hne) := by
  unfold interpolate_color
  have hclamp : max 0 (min 1 ratio) = 1 := by
    have := min_eq_left hr
    rw [this]
    norm_num
  rw [hclamp]
  have hlen : 0 < colors.length := List.length_pos.mpr hne
  have hlast : colors.getLast hne = colors.getD (colors.length - 1) default := by
    rw [List.getLast_eq_getElem, List.getD_eq_getElem]
  split
  · rename_i h1
    rw [hlast, h1]
  · rename_i h1
    have h2 : 2 ≤ colors.length := by omega
    simp only [one_mul]
    have hseg : pyInt ((colors.length - 1 : ℕ) : ℚ) = (colors.length - 1 : ℕ) :=
      pyInt_natCast _
    rw [hseg]
    simp only [Int.toNat_natCast, sub_self]
    have hmin : min (colors.length - 1 + 1) (colors.length - 1) = colors.length - 1 := by
      omega
    rw [hmin, hlast]
    simp [pyInt_intCast]

theorem interpolate_color_single (c : HexColor) (ratio : ℚ) :
    interpolate_color [c] ratio = hex_to_rgb c := by
  unfold interpolate_color
  simp

/-- C1: for every non-empty list of valid 6-hex-digit colors,
`_interpolate_color` returns the first color exactly for every
ratio ≤ 0 and the last color exactly for every ratio ≥ 1 (the ratio is
clamped to `[0,1]` before segment selection), and for a single-color
list it returns that color for every ratio. -/
theorem c1_interpolate_color_endpoints (colors : List HexColor) (hne : colors ≠ [])
    (ratio : ℚ) :
    (ratio ≤ 0 → interpolate_color colors ratio = hex_to_rgb (colors.head hne)) ∧
    (1 ≤ ratio → interpolate_color colors ratio = hex_to_rgb (colors.getLast hne)) ∧
    (colors.length = 1 → interpolate_color colors ratio = hex_to_rgb (colors.head hne)) := by
  have hhead : colors.head hne = colors.getD 0 default := by
    cases colors with
    | nil => exact absurd rfl hne
    | cons a l => rfl
  refine ⟨fun hr => ?_, fun hr => ?_, fun hlen => ?_⟩
  · rw [hhead]; exact interpolate_color_ratio_le_zero colors hne ratio hr
  · exact interpolate_color_ratio_ge_one colors hne ratio hr
  · cases colors with
    | nil => exact absurd rfl hne
    | cons a l =>
      have : l = [] := by
        simpa using hlen
      subst this
      rw [hhead]
      simpa using interpolate_color_single a ratio

/-- Witness for C1 at the concrete palette `["#FF0000", "#00FF00"]`
with out-of-range ratios `-1/2` and `3/2`, and at the singleton palette
`["#336699"]` with ratio `2/5`. -/
theorem c1_interpolate_color_endpoints_witness :
    interpolate_color [⟨15,15,0,0,0,0⟩, ⟨0,0,15,15,0,0⟩] (-1/2) = (255, 0, 0) ∧
    interpolate_color [⟨15,15,0,0,0,0⟩, ⟨0,0,15,15,0,0⟩] (3/2) = (0, 255, 0) ∧
    interpolate_color [⟨3,3,6,6,9,9⟩] (2/5) = (51, 102, 153) := by
  have h1 := (c1_interpolate_color_endpoints [⟨15,15,0,0,0,0⟩, ⟨0,0,15,15,0,0⟩]
    (by simp) (-1/2)).1 (by norm_num)
  have h2 := (c1_interpolate_color_endpoints [⟨15,15,0,0,0,0⟩, ⟨0,0,15,15,0,0⟩]
    (by simp) (3/2)).2.1 (by norm_num)
  have h3 := (c1_interpolate_color_endpoints [⟨3,3,6,6,9,9⟩]
    (by simp) (2/5)).2.2 (by simp)
  refine ⟨?_, ?_, ?_⟩
  · rw [h1]; decide
  · rw [h2]; decide
  · rw [h3]; decide

/-! ## Vertical text layout (`_draw_vertical_text`) -/

/-- Result of the layout phase of `BookmarkGenerator._draw_vertical_text`:
the character columns actually drawn (in left-to-right order, each
top-to-bottom), whether the truncation warning was recorded, and the
number of rows used by the tallest column (which drives the returned
vertical-cursor advance `current_y + actual_rows_used * char_size + 20`).
Pixel placement of the glyphs is a per-character affine function of the
column/row index and is not needed by the verified properties. -/
structure VerticalLayout where
  columns : List (List Char)
  truncated : Bool
  actualRowsUsed : ℕ
  deriving Repr, DecidableEq

/-- `BookmarkGenerator._draw_vertical_text`, layout phase:
`max_chars_per_column = 10`, `max_columns_allowed = 3`; text longer than
30 characters is truncated to `text[:30]` with a warning; the column
count is `min(ceil(total/10), 3)`, forced to 1 when the text is
non-empty and the count computed to 0; column `col` receives
`text[col*10 : min(col*10 + 10, total)]`. -/
def draw_vertical_text (text : List Char) : VerticalLayout :=
  let maxCharsPerColumn : ℕ := 10
  let maxColumnsAllowed : ℕ := 3
  let maxTotalChars : ℕ := maxCharsPerColumn * maxColumnsAllowed
  let totalChars0 := text.length
  let truncated := maxTotalChars < totalChars0
  let text := if maxTotalChars < totalChars0 then text.take maxTotalChars else text
  let totalChars := if maxTotalChars < totalChars0 then maxTotalChars else totalChars0
  let numColumns0 :=
    min ((totalChars + maxCharsPerColumn - 1) / maxCharsPerColumn) maxColumnsAllowed
  let numColumns := if 0 < totalChars ∧ numColumns0 = 0 then 1 else numColumns0
  let columns := (List.range numColumns).map (fun col =>
    let startIdx := col * maxCharsPerColumn
    let endIdx := min (startIdx + maxCharsPerColumn) totalChars
    ((text.drop startIdx).take (endIdx - startIdx)))
  ⟨columns, truncated, min totalChars maxCharsPerColumn⟩

theorem sum_min_ten (len : ℕ) :
    ∀ nc : ℕ,
      (((List.range nc).map (fun col => min 10 (len - col * 10))).sum)
        = min len (nc * 10) := by
  intro nc
  induction nc with
  | zero => simp
  | succ n ih =>
    rw [List.range_succ, List.map_append, List.sum_append, ih]
    simp only [List.map_cons, List.map_nil, List.sum_cons, List.sum_nil]
    omega

theorem draw_vertical_text_columns (text : List Char) :
    (draw_vertical_text text).columns =
      (List.range (min ((min text.length 30 + 9) / 10) 3)).map (fun col =>
        (text.drop (col * 10)).take
          (min (col * 10 + 10) (min text.length 30) - col * 10)) := by
  simp only [draw_vertical_text]
  by_cases h30 : 30 < text.length
  · have h30' : (10 * 3 : ℕ) < text.length := by omega
    have htake : min text.length 30 = 30 := by omega
    simp only [if_pos h30', htake]
    have hnc : (if 0 < 10 * 3 ∧ min ((10 * 3 + 10 - 1) / 10) 3 = 0 then 1
        else min ((10 * 3 + 10 - 1) / 10) 3) = min ((30 + 9) / 10) 3 := by norm_num
    rw [hnc]
    apply List.map_congr_left
    intro col _
    rw [List.drop_take, List.take_take]
    congr 1
    omega
  · have h30' : ¬ (10 * 3 : ℕ) < text.length := by omega
    have htake : min text.length 30 = text.length := by omega
    simp only [if_neg h30', htake]
    have hnc : (if 0 < text.length ∧ min ((text.length + 10 - 1) / 10) 3 = 0 then 1
        else min ((text.length + 10 - 1) / 10) 3) = min ((text.length + 9) / 10) 3 := by
      have hcond : ¬ (0 < text.length ∧ min ((text.length + 10 - 1) / 10) 3 = 0) := by
        omega
      rw [if_neg hcond]
      omega
    rw [hnc]

theorem draw_vertical_text_truncated (text : List Char) :
    (draw_vertical_text text).truncated = decide (30 < text.length) := by
  simp only [draw_vertical_text]

theorem draw_vertical_text_rows (text : List Char) :
    (draw_vertical_text text).actualRowsUsed = min (min text.length 30) 10 := by
  simp only [draw_vertical_text]
  by_cases h30 : 30 < text.length
  · have h30' : (10 * 3 : ℕ) < text.length := by omega
    simp only [if_pos h30']
    omega
  · have h30' : ¬ (10 * 3 : ℕ) < text.length := by omega
    simp only [if_neg h30']
    omega

/-- C2: for every input text of `n` characters, `_draw_vertical_text`
draws exactly `min n 30` characters arranged in `min (ceil (n/10)) 3`
columns (at least 1 column when `n > 0`), each column holding at most
10 characters, and the truncation warning is recorded exactly when
`n > 30`. -/
theorem c2_draw_vertical_text_layout (text : List Char) :
    (((draw_vertical_text text).columns.map List.length).sum = min text.length 30) ∧
    ((draw_vertical_text text).columns.length = min ((text.length + 9) / 10) 3) ∧
    (0 < text.length → 1 ≤ (draw_vertical_text text).columns.length) ∧
    (∀ col ∈ (draw_vertical_text text).columns, col.length ≤ 10) ∧
    ((draw_vertical_text text).truncated = decide (30 < text.length)) := by
  have hc := draw_vertical_text_columns text
  have hlen : (draw_vertical_text text).columns.length
      = min ((text.length + 9) / 10) 3 := by
    rw [hc, List.length_map, List.length_range]
    omega
  refine ⟨?_, hlen, ?_, ?_, draw_vertical_text_truncated text⟩
  · rw [hc, List.map_map]
    have hpt : (List.length ∘ fun col =>
        (text.drop (col * 10)).take
          (min (col * 10 + 10) (min text.length 30) - col * 10))
        = fun col => min 10 (min text.length 30 - col * 10) := by
      funext col
      simp only [Function.comp_apply, List.length_take, List.length_drop]
      omega
    rw [hpt, sum_min_ten]
    omega
  · intro hpos
    rw [hlen]
    omega
  · intro col hcol
    rw [hc] at hcol
    obtain ⟨i, _, rfl⟩ := List.mem_map.mp hcol
    simp only [List.length_take, List.length_drop]
    omega

/-- Witness for C2 at a 35-character input (3 columns, 30 characters
drawn, truncation recorded) and a 7-character input (1 column, all 7
drawn). -/
theorem c2_draw_vertical_text_layout_witness :
    ((((draw_vertical_text (List.replicate 35 'x')).columns.map List.length).sum = 30) ∧
     ((draw_vertical_text (List.replicate 35 'x')).columns.length = 3) ∧
     ((draw_vertical_text (List.replicate 35 'x')).truncated = true)) ∧
    ((((draw_vertical_text (List.replicate 7 'y')).columns.map List.length).sum = 7) ∧
     ((draw_vertical_text (List.replicate 7 'y')).columns.length = 1) ∧
     ((draw_vertical_text (List.replicate 7 'y')).truncated = false)) := by
  have h35 := c2_draw_vertical_text_layout (List.replicate 35 'x')
  have h7 := c2_draw_vertical_text_layout (List.replicate 7 'y')
  rw [List.length_replicate] at h35 h7
  refine ⟨⟨?_, ?_, ?_⟩, ⟨?_, ?_, ?_⟩⟩
  · rw [h35.1]; decide
  · rw [h35.2.1]; decide
  · rw [h35.2.2.2.2]; decide
  · rw [h7.1]; decide
  · rw [h7.2.1]; decide
  · rw [h7.2.2.2.2]; decide

/-! ## Image fitting (`_fit_image_to_zone`) -/

/-- A PIL image, modelled by its pixel dimensions (`image.width`,
`image.height`), the only attribute the verified properties depend on. -/
structure PILImage where
  width : ℕ
  height : ℕ
  deriving DecidableEq, Repr

/-- `Image.resize((w, h), Resampling.LANCZOS)`: returns an image of
exactly the requested size. -/
def pilResize (_img : PILImage) (w h : ℕ) : PILImage := ⟨w, h⟩

/-- `Image.crop((left, upper, right, lower))`: returns an image of size
`(right - left) × (lower - upper)` (PIL computes the box difference). -/
def pilCrop (_img : PILImage) (left upper right lower : ℤ) : PILImage :=
  ⟨(right - left).toNat, (lower - upper).toNat⟩

/-- `BookmarkGenerator._fit_image_to_zone`: if the aspect ratios differ
by less than `0.1`, resize directly; otherwise center-crop symmetric
strips (sides if the source is relatively wider, top/bottom if
relatively taller) to the target ratio and then resize. Float ratio
arithmetic is exact over `ℚ`; Python `int()` is `pyInt` and Python `//`
on ints is `Int.fdiv` (floor division). -/
def fit_image_to_zone (image : PILImage) (target_width target_height : ℕ) : PILImage :=
  let target_ratio : ℚ := (target_width : ℚ) / (target_height : ℚ)
  let img_ratio : ℚ := (image.width : ℚ) / (image.height : ℚ)
  if |target_ratio - img_ratio| < 1/10 then
    pilResize image target_width target_height
  else if target_ratio < img_ratio then
    let new_width : ℤ := pyInt ((image.height : ℚ) * target_ratio)
    let left : ℤ := ((image.width : ℤ) - new_width).fdiv 2
    let cropped := pilCrop image left 0 (left + new_width) (image.height : ℤ)
    pilResize cropped target_width target_height
  else
    let new_height : ℤ := pyInt ((image.width : ℚ) / target_ratio)
    let top : ℤ := ((image.height : ℤ) - new_height).fdiv 2
    let cropped := pilCrop image 0 top (image.width : ℤ) (top + new_height)
    pilResize cropped target_width target_height

theorem fit_image_to_zone_size (image : PILImage) (target_width target_height : ℕ) :
    fit_image_to_zone image target_width target_height
      = ⟨target_width, target_height⟩ := by
  unfold fit_image_to_zone
  dsimp only
  split
  · rfl
  · split <;> rfl

/-- C3: for every source image of dimensions ≥ 1×1 and every target
dimensions ≥ 1×1, `_fit_image_to_zone` returns an image of exactly
`target_width × target_height` (the hypotheses delimit the claim's
scope; in them every ratio the code forms is well defined and both
terminal operations are resizes to the target box). -/
theorem c3_fit_image_to_zone_exact (image : PILImage) (target_width target_height : ℕ)
    (hw : 1 ≤ image.width) (hh : 1 ≤ image.height)
    (htw : 1 ≤ target_width) (hth : 1 ≤ target_height) :
    fit_image_to_zone image target_width target_height
      = ⟨target_width, target_height⟩ :=
  fit_image_to_zone_size image target_width target_height

/-- Witness for C3: a 640×480 source fitted to a 170×510 zone. -/
theorem c3_fit_image_to_zone_exact_witness :
    fit_image_to_zone ⟨640, 480⟩ 170 510 = ⟨170, 510⟩ :=
  c3_fit_image_to_zone_exact ⟨640, 480⟩ 170 510
    (by norm_num) (by norm_num) (by norm_num) (by norm_num)

/-! ## Greedy character wrapping (`_wrap_text_lines`) -/

/-- Loop of `BookmarkGenerator._wrap_text_lines`: for each character,
try `test_line = current_line + char`; keep it while the measured pixel
width (`draw.textbbox` width, abstracted as `measure`) stays within
`max_width`; on overflow commit the (non-empty) current line and start a
new one with the overflowing character; finally commit the remaining
non-empty line. -/
def wrap_text_lines_aux (measure : List Char → ℤ) (maxWidth : ℤ) :
    List Char → List Char → List (List Char)
  | [], currentLine => if currentLine = [] then [] else [currentLine]
  | c :: rest, currentLine =>
      let testLine := currentLine ++ [c]
      if measure testLine ≤ maxWidth then
        wrap_text_lines_aux measure maxWidth rest testLine
      else
        (if currentLine = [] then [] else [currentLine])
          ++ wrap_text_lines_aux measure maxWidth rest [c]

/-- `BookmarkGenerator._wrap_text_lines` (the same loop also appears
verbatim inside `_wrap_text`): greedy character-by-character wrapping
of `text` under width `max_width`, starting from an empty current line. -/
def wrap_text_lines (measure : List Char → ℤ) (text : List Char) (maxWidth : ℤ) :
    List (List Char) :=
  wrap_text_lines_aux measure maxWidth text []

theorem wrap_text_lines_aux_width (measure : List Char → ℤ) (maxWidth : ℤ)
    (chars : List Char) :
    ∀ currentLine : List Char,
      (currentLine = [] ∨ measure currentLine ≤ maxWidth) →
      (∀ c ∈ chars, measure [c] ≤ maxWidth) →
      ∀ line ∈ wrap_text_lines_aux measure maxWidth chars currentLine,
        measure line ≤ maxWidth := by
  induction chars with
  | nil =>
    intro currentLine hinv _ line hline
    unfold wrap_text_lines_aux at hline
    split at hline
    · exact absurd hline (List.not_mem_nil line)
    · rename_i hne
      rcases List.mem_singleton.mp hline with rfl
      rcases hinv with h | h
      · exact absurd h hne
      · exact h
  | cons c rest ih =>
    intro currentLine hinv hchars line hline
    unfold wrap_text_lines_aux at hline
    dsimp only at hline
    split at hline
    · rename_i hfit
      exact ih (currentLine ++ [c]) (Or.inr hfit)
        (fun d hd => hchars d (List.mem_cons_of_mem c hd)) line hline
    · rcases List.mem_append.mp hline with hmem | hmem
      · split at hmem
        · exact absurd hmem (List.not_mem_nil line)
        · rename_i hne
          rcases List.mem_singleton.mp hmem with rfl
          rcases hinv with h | h
          · exact absurd h hne
          · exact h
      · exact ih [c] (Or.inr (hchars c (List.mem_cons_self c rest)))
          (fun d hd => hchars d (List.mem_cons_of_mem c hd)) line hmem

/-- C4: if every single character of the input measures at most
`max_width`, every line produced by `_wrap_text_lines` measures at most
`max_width`. The measure is abstract: the property holds for any
`textbbox`-style width function. -/
theorem c4_wrap_text_lines_width (measure : List Char → ℤ) (text : List Char)
    (maxWidth : ℤ) (hchars : ∀ c ∈ text, measure [c] ≤ maxWidth) :
    ∀ line ∈ wrap_text_lines measure text maxWidth, measure line ≤ maxWidth :=
  wrap_text_lines_aux_width measure maxWidth text [] (Or.inl rfl) hchars

/-- Witness for C4 with the width measure `8 × (number of characters)`
(a fixed-advance font), `max_width = 30`, on the text `"abcdefg"`:
every produced line measures at most 30. -/
theorem c4_wrap_text_lines_width_witness :
    (∀ c ∈ String.toList "abcdefg", (fun l : List Char => 8 * (l.length : ℤ)) [c] ≤ 30) ∧
    (∀ line ∈ wrap_text_lines (fun l : List Char => 8 * (l.length : ℤ))
        (String.toList "abcdefg") 30, (fun l : List Char => 8 * (l.length : ℤ)) line ≤ 30) :=
  ⟨by decide, c4_wrap_text_lines_width (fun l : List Char => 8 * (l.length : ℤ))
    (String.toList "abcdefg") 30 (by decide)⟩

theorem wrap_text_lines_aux_join (measure : List Char → ℤ) (maxWidth : ℤ)
    (chars : List Char) :
    ∀ currentLine : List Char,
      (wrap_text_lines_aux measure maxWidth chars currentLine).flatten
        = currentLine ++ chars := by
  induction chars with
  | nil =>
    intro currentLine
    unfold wrap_text_lines_aux
    split
    · rename_i h
      simp [h]
    · simp
  | cons c rest ih =>
    intro currentLine
    unfold wrap_text_lines_aux
    dsimp only
    split
    · rw [ih (currentLine ++ [c])]
      simp
    · rw [List.flatten_append, ih [c]]
      split
      · rename_i h
        simp [h]
      · simp

/-- C10: concatenating, in order, the lines returned by
`_wrap_text_lines` yields exactly the input text: the greedy wrapper
never drops, duplicates, or reorders a character, for any width measure
and any `max_width`. -/
theorem c10_wrap_text_lines_join (measure : List Char → ℤ) (text : List Char)
    (maxWidth : ℤ) :
    (wrap_text_lines measure text maxWidth).flatten = text :=
  wrap_text_lines_aux_join measure maxWidth text []

/-! ## Decorative elements (`_add_decorative_elements`) -/

/-- One PIL `ImageDraw` call issued by
`BookmarkGenerator._add_decorative_elements`, with the geometry and
color arguments it receives. The color type is a parameter: the code
passes palette entries through without interpreting them. -/
inductive DrawOp (α : Type) where
  /-- `draw.rectangle([(x1, y1), (x2, y2)], outline=color, width=w)` -/
  | borderRect (x1 y1 x2 y2 : ℤ) (outline : α) (strokeWidth : ℕ)
  /-- `draw.line([p1, p2, p3], fill=color, width=w)` (corner accents) -/
  | cornerLine (p1 p2 p3 : ℤ × ℤ) (color : α) (strokeWidth : ℕ)
  /-- `draw.ellipse([(x1, y1), (x2, y2)], fill=color)` (dot markers) -/
  | dotEllipse (x1 y1 x2 y2 : ℤ) (fill : α)
  /-- `draw.line([(x1, y1), (x2, y2)], fill=color, width=w)` (divider) -/
  | dividerLine (x1 y1 x2 y2 : ℤ) (color : α) (strokeWidth : ℕ)
  deriving DecidableEq, Repr

variable {α : Type}

/-- The `complexity >= 2` block: the inset border,
`width = 3 if complexity >= 4 else 2`, `margin = 10`. -/
def decoBorderOps (width height : ℤ) (complexity : ℕ) (accent_color : α) :
    List (DrawOp α) :=
  let border_width : ℕ := if 4 ≤ complexity then 3 else 2
  let margin : ℤ := 10
  [.borderRect margin margin (width - margin - 1) (height - margin - 1)
    accent_color border_width]

/-- The `complexity >= 3` block: the four L-shaped corner accents,
`corner_size = 15`, `line_width = 2`. -/
def decoCornerOps (width height : ℤ) (accent_color : α) : List (DrawOp α) :=
  let corner_size : ℤ := 15
  let line_width : ℕ := 2
  [.cornerLine (0, corner_size) (0, 0) (corner_size, 0) accent_color line_width,
   .cornerLine (width - corner_size, 0) (width - 1, 0) (width - 1, corner_size)
     accent_color line_width,
   .cornerLine (0, height - corner_size - 1) (0, height - 1) (corner_size, height - 1)
     accent_color line_width,
   .cornerLine (width - corner_size - 1, height - 1) (width - 1, height - 1)
     (width - 1, height - corner_size - 1) accent_color line_width]

/-- The `complexity >= 4` block: four filled dot markers,
`dot_size = 4`, `dot_margin = 20`, filled with
`colors[-1] if len(colors) > 2 else accent_color`
(Python `colors[-1]` is the last entry, `colors.getD (colors.length - 1)`). -/
def decoDotOps [Inhabited α] (width height : ℤ) (colors : List α) (accent_color : α) :
    List (DrawOp α) :=
  let dot_size : ℤ := 4
  let dot_margin : ℤ := 20
  let positions : List (ℤ × ℤ) :=
    [(dot_margin, dot_margin),
     (width - dot_margin, dot_margin),
     (dot_margin, height - dot_margin),
     (width - dot_margin, height - dot_margin)]
  positions.map (fun p =>
    .dotEllipse (p.1 - dot_size) (p.2 - dot_size) (p.1 + dot_size) (p.2 + dot_size)
      (if 2 < colors.length then colors.getD (colors.length - 1) default
       else accent_color))

/-- The `complexity >= 5` block: the horizontal divider near the bottom,
`line_y = height - 50`. -/
def decoDividerOps (width height : ℤ) (accent_color : α) : List (DrawOp α) :=
  let line_y : ℤ := height - 50
  [.dividerLine 40 line_y (width - 40) line_y accent_color 1]

/-- `BookmarkGenerator._add_decorative_elements`: the sequence of draw
calls issued for the given complexity tier and palette.
`accent_color = colors[1] if len(colors) > 1 else colors[0]`. -/
def add_decorative_elements [Inhabited α] (width height : ℤ) (complexity : ℕ)
    (colors : List α) : List (DrawOp α) :=
  let accent_color :=
    if 1 < colors.length then colors.getD 1 default else colors.getD 0 default
  (if 2 ≤ complexity then decoBorderOps width height complexity accent_color else [])
    ++ (if 3 ≤ complexity then decoCornerOps width height accent_color else [])
    ++ (if 4 ≤ complexity then decoDotOps width height colors accent_color else [])
    ++ (if 5 ≤ complexity then decoDividerOps width height accent_color else [])

/-- The op kind: used to state which of the four ornament categories a
draw call belongs to. -/
def DrawOp.isBorder : DrawOp α → Bool
  | .borderRect .. => true
  | _ => false

def DrawOp.isCorner : DrawOp α → Bool
  | .cornerLine .. => true
  | _ => false

def DrawOp.isDot : DrawOp α → Bool
  | .dotEllipse .. => true
  | _ => false

def DrawOp.isDivider : DrawOp α → Bool
  | .dividerLine .. => true
  | _ => false

/-- The fill colors of the dot-marker calls, in order. -/
def dotFills (ops : List (DrawOp α)) : List α :=
  ops.filterMap (fun op => match op with
    | .dotEllipse _ _ _ _ fill => some fill
    | _ => none)

theorem countP_isBorder_ade [Inhabited α] (width height : ℤ) (complexity : ℕ)
    (colors : List α) :
    (add_decorative_elements width height complexity colors).countP
        (fun op => op.isBorder)
      = if 2 ≤ complexity then 1 else 0 := by
  simp only [add_decorative_elements, decoBorderOps, decoCornerOps, decoDotOps,
    decoDividerOps, List.countP_append]
  split_ifs <;>
    simp [List.countP_cons, List.countP_nil, DrawOp.isBorder, DrawOp.isCorner,
      DrawOp.isDot, DrawOp.isDivider, List.countP_map, Function.comp]

theorem countP_isCorner_ade [Inhabited α] (width height : ℤ) (complexity : ℕ)
    (colors : List α) :
    (add_decorative_elements width height complexity colors).countP
        (fun op => op.isCorner)
      = if 3 ≤ complexity then 4 else 0 := by
  simp only [add_decorative_elements, decoBorderOps, decoCornerOps, decoDotOps,
    decoDividerOps, List.countP_append]
  split_ifs <;>
    simp [List.countP_cons, List.countP_nil, DrawOp.isBorder, DrawOp.isCorner,
      DrawOp.isDot, DrawOp.isDivider, List.countP_map, Function.comp]

theorem countP_isDot_ade [Inhabited α] (width height : ℤ) (complexity : ℕ)
    (colors : List α) :
    (add_decorative_elements width height complexity colors).countP
        (fun op => op.isDot)
      = if 4 ≤ complexity then 4 else 0 := by
  simp only [add_decorative_elements, decoBorderOps, decoCornerOps, decoDotOps,
    decoDividerOps, List.countP_append]
  split_ifs <;>
    simp [List.countP_cons, List.countP_nil, DrawOp.isBorder, DrawOp.isCorner,
      DrawOp.isDot, DrawOp.isDivider, List.countP_map, Function.comp]

theorem countP_isDivider_ade [Inhabited α] (width height : ℤ) (complexity : ℕ)
    (colors : List α) :
    (add_decorative_elements width height complexity colors).countP
        (fun op => op.isDivider)
      = if 5 ≤ complexity then 1 else 0 := by
  simp only [add_decorative_elements, decoBorderOps, decoCornerOps, decoDotOps,
    decoDividerOps, List.countP_append]
  split_ifs <;>
    simp [List.countP_cons, List.countP_nil, DrawOp.isBorder, DrawOp.isCorner,
      DrawOp.isDot, DrawOp.isDivider, List.countP_map, Function.comp]

theorem dotFills_ade [Inhabited α] (width height : ℤ) (complexity : ℕ)
    (colors : List α) (h4 : 4 ≤ complexity) :
    dotFills (add_decorative_elements width height complexity colors)
      = List.replicate 4
          (if 2 < colors.length then colors.getD (colors.length - 1) default
           else if 1 < colors.length then colors.getD 1 default
           else colors.getD 0 default) := by
  have h2 : 2 ≤ complexity := by omega
  have h3 : 3 ≤ complexity := by omega
  by_cases h5 : 5 ≤ complexity <;>
  · by_cases hcl : 2 < colors.length <;>
      by_cases hcl1 : 1 < colors.length <;>
        simp_all [add_decorative_elements, dotFills, List.filterMap_append,
          decoBorderOps, decoCornerOps, decoDotOps, decoDividerOps,
          List.replicate]

/-- C5 counterexample: with the 4-entry palette `[10, 11, 12, 13]`
(four distinct colors) at complexity 4, the four corner dot markers are
filled with `13` — the LAST palette entry (`colors[-1]`) — not with the
palette color at index 2 (`12`) as the claim states. -/
theorem c5_dot_color_counterexample :
    dotFills (add_decorative_elements (α := ℕ) 100 200 4 [10, 11, 12, 13])
      ≠ List.replicate 4 (([10, 11, 12, 13] : List ℕ).getD 2 0) := by
  decide

/-- C5 (amended): when decorative elements are rendered at complexity
tier ≥ 4, the four corner dot markers are filled with the LAST palette
color (`colors[-1]`) when the palette has at least 3 entries, and
otherwise with the accent color (`palette[1]` if present else
`palette[0]`); this holds for every palette of 1 to 4 colors. (The
original claim said palette index 2; index 2 and the last entry
coincide only for palettes of exactly 3 entries.) -/
theorem c5_dot_color_amended [Inhabited α] (width height : ℤ) (complexity : ℕ)
    (colors : List α) (h4 : 4 ≤ complexity) (hlen1 : 1 ≤ colors.length)
    (hlen4 : colors.length ≤ 4) :
    dotFills (add_decorative_elements width height complexity colors)
      = List.replicate 4
          (if 2 < colors.length then colors.getD (colors.length - 1) default
           else if 1 < colors.length then colors.getD 1 default
           else colors.getD 0 default) :=
  dotFills_ade width height complexity colors h4

/-- Witness for C5 (amended) at the concrete palettes `[7, 8, 9]`
(last = index 2 = `9`) and `[7, 8, 9, 6]` (last = `6`), both at
complexity 4. -/
theorem c5_dot_color_amended_witness :
    dotFills (add_decorative_elements (α := ℕ) 100 200 4 [7, 8, 9]) = [9, 9, 9, 9] ∧
    dotFills (add_decorative_elements (α := ℕ) 100 200 4 [7, 8, 9, 6]) = [6, 6, 6, 6] := by
  have h3 := c5_dot_color_amended (α := ℕ) 100 200 4 [7, 8, 9]
    (by norm_num) (by decide) (by decide)
  have h4 := c5_dot_color_amended (α := ℕ) 100 200 4 [7, 8, 9, 6]
    (by norm_num) (by decide) (by decide)
  refine ⟨?_, ?_⟩
  · rw [h3]; decide
  · rw [h4]; decide

/-- C8 counterexample: the 2px border drawn at tier 2 is not among the
ops drawn at tier 5 (its stroke width becomes 3px at tier ≥ 4), so
"every element drawn at tier k is also drawn at every tier > k" fails
as stated at the level of draw calls. -/
theorem c8_cumulative_counterexample :
    ¬ (∀ op ∈ add_decorative_elements (α := ℕ) 100 200 2 [10, 11],
        op ∈ add_decorative_elements (α := ℕ) 100 200 5 [10, 11]) := by
  decide

/-- C8 (amended): at complexity 1 no border, corner accent, dot marker
or divider is drawn; at complexity 5 all four element categories are
drawn; each tier's ornament CATEGORIES are cumulative with lower tiers
(the per-category draw counts are monotone in the tier), and every
non-border op drawn at tier k is drawn identically at every tier ≥ k.
(The original unrestricted cumulativity fails only for the border op,
whose stroke width changes from 2px to 3px at tier ≥ 4.) -/
theorem c8_decorations_cumulative [Inhabited α] (width height : ℤ) (colors : List α) :
    (add_decorative_elements width height 1 colors = []) ∧
    (0 < (add_decorative_elements width height 5 colors).countP (fun op => op.isBorder) ∧
     0 < (add_decorative_elements width height 5 colors).countP (fun op => op.isCorner) ∧
     0 < (add_decorative_elements width height 5 colors).countP (fun op => op.isDot) ∧
     0 < (add_decorative_elements width height 5 colors).countP (fun op => op.isDivider)) ∧
    (∀ k k' : ℕ, k ≤ k' →
      (add_decorative_elements width height k colors).countP (fun op => op.isBorder)
          ≤ (add_decorative_elements width height k' colors).countP (fun op => op.isBorder) ∧
      (add_decorative_elements width height k colors).countP (fun op => op.isCorner)
          ≤ (add_decorative_elements width height k' colors).countP (fun op => op.isCorner) ∧
      (add_decorative_elements width height k colors).countP (fun op => op.isDot)
          ≤ (add_decorative_elements width height k' colors).countP (fun op => op.isDot) ∧
      (add_decorative_elements width height k colors).countP (fun op => op.isDivider)
          ≤ (add_decorative_elements width height k' colors).countP (fun op => op.isDivider)) ∧
    (∀ k k' : ℕ, k ≤ k' → ∀ op ∈ add_decorative_elements width height k colors,
      op.isBorder = false → op ∈ add_decorative_elements width height k' colors) := by
  refine ⟨?_, ?_, ?_, ?_⟩
  · simp [add_decorative_elements]
  · rw [countP_isBorder_ade, countP_isCorner_ade, countP_isDot_ade, countP_isDivider_ade]
    norm_num
  · intro k k' hkk
    rw [countP_isBorder_ade, countP_isBorder_ade, countP_isCorner_ade,
      countP_isCorner_ade, countP_isDot_ade, countP_isDot_ade,
      countP_isDivider_ade, countP_isDivider_ade]
    refine ⟨?_, ?_, ?_, ?_⟩ <;> split_ifs <;> omega
  · intro k k' hkk op hop hnb
    simp only [add_decorative_elements, List.mem_append] at hop ⊢
    rcases hop with ((hb | hc) | hd) | hv
    · rw [decoBorderOps] at hb
      split at hb
      · simp only [List.mem_singleton] at hb
        subst hb
        simp [DrawOp.isBorder] at hnb
      · exact absurd hb (List.not_mem_nil op)
    · split at hc
      · rename_i h3
        refine Or.inl (Or.inl (Or.inr ?_))
        rw [if_pos (by omega : 3 ≤ k')]
        exact hc
      · exact absurd hc (List.not_mem_nil op)
    · split at hd
      · rename_i h4
        refine Or.inl (Or.inr ?_)
        rw [if_pos (by omega : 4 ≤ k')]
        exact hd
      · exact absurd hd (List.not_mem_nil op)
    · split at hv
      · rename_i h5
        refine Or.inr ?_
        rw [if_pos (by omega : 5 ≤ k')]
        exact hv
      · exact absurd hv (List.not_mem_nil op)

/-! ## Data model (`schemas.py`) and configuration (`config.py`) -/

/-- `MoodType` (schemas.py). -/
inductive MoodType where
  | warm | fresh | professional | playful | elegant | modern | artistic
  deriving DecidableEq, Repr

/-- `LayoutType` (schemas.py): `left-right`, `top-bottom`,
`center-focused`, `mosaic-grid`, `full-bleed-image`. -/
inductive LayoutType where
  | horizontal | vertical | centered | mosaic | fullBleed
  deriving DecidableEq, Repr

/-- `BackgroundType` (schemas.py). -/
inductive BackgroundType where
  | solid | gradient | image
  deriving DecidableEq, Repr

/-- `GradientDirection` (schemas.py). -/
inductive GradientDirection where
  | horizontal | vertical | diagonal | radial
  deriving DecidableEq, Repr

/-- `SolidBackground` (schemas.py). -/
structure SolidBackground where
  color : String
  deriving DecidableEq, Repr

/-- `GradientBackground` (schemas.py): 2–3 colors, angle in degrees. -/
structure GradientBackground where
  direction : GradientDirection
  colors : List String
  angle : ℚ
  deriving DecidableEq, Repr

/-- `ImageBackground` (schemas.py). -/
structure ImageBackground where
  image_path : String
  opacity : ℚ
  fit_mode : String
  deriving DecidableEq, Repr

/-- `BackgroundSettings` (schemas.py): a type tag plus the optional
per-variant payloads. -/
structure BackgroundSettings where
  background_type : BackgroundType
  solid : Option SolidBackground
  gradient : Option GradientBackground
  image : Option ImageBackground
  deriving DecidableEq, Repr

/-- `Settings` constants (config.py): fixed millimeter size, bleed,
safe margin and the two DPIs. -/
def BOOKMARK_WIDTH_MM : ℚ := 60
def BOOKMARK_HEIGHT_MM : ℚ := 180
def BLEED_MM : ℚ := 3
def SAFE_MARGIN_MM : ℚ := 5
def PREVIEW_DPI : ℕ := 72
def FINAL_DPI : ℕ := 300

/-- `Settings.mm_to_px`: `(mm / 25.4) * dpi` (exact over `ℚ`). -/
def mm_to_px (mm : ℚ) (dpi : ℕ) : ℚ := mm / (25.4 : ℚ) * dpi

/-- `Settings.bookmark_size_px_preview`: `int()` of the mm→px
conversion at `PREVIEW_DPI`. -/
def bookmark_size_px_preview : ℕ × ℕ :=
  ((pyInt (mm_to_px BOOKMARK_WIDTH_MM PREVIEW_DPI)).toNat,
   (pyInt (mm_to_px BOOKMARK_HEIGHT_MM PREVIEW_DPI)).toNat)

/-- `Settings.bookmark_size_px_final`: `int()` of the mm→px conversion
at `FINAL_DPI`. -/
def bookmark_size_px_final : ℕ × ℕ :=
  ((pyInt (mm_to_px BOOKMARK_WIDTH_MM FINAL_DPI)).toNat,
   (pyInt (mm_to_px BOOKMARK_HEIGHT_MM FINAL_DPI)).toNat)

/-- `Settings.bleed_px_final`. -/
def bleed_px_final : ℕ := (pyInt (mm_to_px BLEED_MM FINAL_DPI)).toNat

/-- `TextDirection` (schemas.py). -/
inductive TextDirection where
  | horizontal | vertical
  deriving DecidableEq, Repr

/-- `TextAlignment` (schemas.py). -/
inductive TextAlignment where
  | left | center | right
  deriving DecidableEq, Repr

/-- `FontSize` (schemas.py). -/
inductive FontSize where
  | small | medium | large | extraLarge
  deriving DecidableEq, Repr

/-- `TextStyle` (schemas.py). -/
structure TextStyle where
  font_size : FontSize
  font_weight : String
  font_style : String
  color : String
  alignment : TextAlignment
  direction : TextDirection
  deriving DecidableEq, Repr

/-- `TextBlock` (schemas.py). -/
structure TextBlock where
  text : List Char
  style : TextStyle
  deriving DecidableEq, Repr

/-- `RichTextContent` (schemas.py). -/
structure RichTextContent where
  blocks : List TextBlock
  deriving DecidableEq, Repr

/-- `TextPosition` (schemas.py). -/
structure TextPosition where
  top_margin : ℤ
  bottom_margin : ℤ
  left_margin : ℤ
  right_margin : ℤ
  width : Option ℤ
  height : Option ℤ
  alignment : TextAlignment
  direction : TextDirection
  deriving DecidableEq, Repr

/-- `GenerateFinalRequest` (schemas.py). -/
structure GenerateFinalRequest where
  mood : MoodType
  complexity : ℕ
  colors : List String
  layout : LayoutType
  user_photo_path : Option String
  user_text : List Char
  rich_text : Option RichTextContent
  background : Option BackgroundSettings
  text_position : Option TextPosition
  show_borders : Bool
  deriving DecidableEq, Repr

/-! ## `generate_final` orchestration -/

/-- Which background step `generate_final` performs on the content
image (lines 374–410). -/
inductive BackgroundAction where
  /-- user photo opened, fitted by `_fit_image_to_zone` and pasted at
  `(0, 0)` over the whole content area -/
  | userPhoto (fitted : PILImage)
  /-- user photo present but opening/fitting raised: logged, content
  image left as the `colors[0]`-filled base (no background applied) -/
  | userPhotoFailed
  /-- no photo: `_draw_background(content_image, request.background)` -/
  | settingsBackground (bg : BackgroundSettings)
  /-- no photo, no background settings: default flat fill -/
  | defaultFill (color : String)
  deriving DecidableEq, Repr

/-- Python truthiness of the optional path string
(`if user_photo_path and ...`). -/
def truthyPath : Option String → Bool
  | none => false
  | some p => p ≠ ""

/-- The background branch of `generate_final`:
`if user_photo_path and Path(user_photo_path).exists():` take the photo
branch (pasting the cover-fitted photo, or logging the load failure);
otherwise apply `request.background` when present, else fill with
`request.colors[0] if request.colors else "#FFFFFF"`.
`photoFileExists` abstracts `Path(...).exists()` and `photoLoadOk`
whether `Image.open`/fitting raised. -/
def background_stage (user_photo_path : Option String)
    (photoFileExists photoLoadOk : Bool) (user_photo : PILImage)
    (background : Option BackgroundSettings) (colors : List String)
    (content_width content_height : ℕ) : BackgroundAction :=
  if truthyPath user_photo_path && photoFileExists then
    if photoLoadOk then
      .userPhoto (fit_image_to_zone user_photo content_width content_height)
    else .userPhotoFailed
  else
    match background with
    | some bg => .settingsBackground bg
    | none => .defaultFill (match colors with | [] => "#FFFFFF" | c :: _ => c)

/-- The arguments `generate_final` passes to `_add_user_text`
(line 415): canvas dims, layout, text, colors, rich text and text
position — the background settings are not among them. -/
structure TextStageInputs where
  width : ℕ
  height : ℕ
  layout : LayoutType
  text : List Char
  colors : List String
  rich_text : Option RichTextContent
  text_position : Option TextPosition
  deriving DecidableEq, Repr

/-- The render plan `generate_final` executes on the content image
before pasting it back into the bled canvas: content dimensions from
config, the background action, the text-stage inputs, and the
decorative ops (present only when `request.show_borders`). -/
structure FinalRenderPlan where
  content_width : ℕ
  content_height : ℕ
  bleed : ℕ
  backgroundAction : BackgroundAction
  textStage : TextStageInputs
  decorations : Option (List (DrawOp String))
  deriving DecidableEq, Repr

/-- `BookmarkGenerator.generate_final`, composition phase
(lines 314–444): sizes from `settings`, the background branch, the
`_add_user_text` call on the request's layout/text/colors/rich
text/text position, and `_add_decorative_elements` iff
`request.show_borders`. -/
def generate_final_plan (request : GenerateFinalRequest)
    (user_photo_path : Option String) (photoFileExists photoLoadOk : Bool)
    (user_photo : PILImage) : FinalRenderPlan :=
  let content_width := bookmark_size_px_final.1
  let content_height := bookmark_size_px_final.2
  { content_width := content_width
    content_height := content_height
    bleed := bleed_px_final
    backgroundAction := background_stage user_photo_path photoFileExists photoLoadOk
      user_photo request.background request.colors content_width content_height
    textStage := ⟨content_width, content_height, request.layout, request.user_text,
      request.colors, request.rich_text, request.text_position⟩
    decorations :=
      if request.show_borders then
        some (add_decorative_elements (content_width : ℤ) (content_height : ℤ)
          request.complexity request.colors)
      else none }

/-- Outcome of the encode tail of `generate_final` (lines 451–487):
which output files were written and what the call returned. -/
structure EncodeOutcome where
  filesWritten : List String
  returned : Option (String × String)
  deriving DecidableEq, Repr

/-- Encode tail of `generate_final`: `image.save(png, "PNG", ...)` then
`pdf_image.save(pdf, "PDF", ...)`; neither save is wrapped in
`try/except`, so an exception in either propagates and the
`(png, pdf)` pair is returned only after both saves succeeded.
`pngSaveOk` / `pdfSaveOk` abstract whether each PIL save call raises. -/
def generate_final_encode (pngSaveOk pdfSaveOk : Bool)
    (png_filepath pdf_filepath : String) : EncodeOutcome :=
  if pngSaveOk then
    if pdfSaveOk then
      ⟨[png_filepath, pdf_filepath], some (png_filepath, pdf_filepath)⟩
    else ⟨[png_filepath], none⟩
  else ⟨[], none⟩

/-- C6: `generate_final` either returns a complete, consistent
(PNG, PDF) pair or fails atomically: whenever either save raises, no
pair is returned (the exception propagates), and a returned pair is
always exactly the two files both of which were written by this call.
No partially-written output is ever a returned (valid) output of the
call. -/
theorem c6_generate_final_atomic (pngSaveOk pdfSaveOk : Bool)
    (png_filepath pdf_filepath : String) :
    (∀ pair, (generate_final_encode pngSaveOk pdfSaveOk png_filepath pdf_filepath).returned
        = some pair →
      pair = (png_filepath, pdf_filepath) ∧
      (generate_final_encode pngSaveOk pdfSaveOk png_filepath pdf_filepath).filesWritten
        = [png_filepath, pdf_filepath]) ∧
    ((pngSaveOk = false ∨ pdfSaveOk = false) →
      (generate_final_encode pngSaveOk pdfSaveOk png_filepath pdf_filepath).returned
        = none) := by
  cases pngSaveOk <;> cases pdfSaveOk <;>
    simp [generate_final_encode]

/-- Witness for C6 at concrete paths: a failed PDF save returns no
output pair, and a fully successful encode returns exactly the written
pair. -/
theorem c6_generate_final_atomic_witness :
    (generate_final_encode true false "b.png" "b.pdf").returned = none ∧
    ((generate_final_encode true true "b.png" "b.pdf").returned = some ("b.png", "b.pdf") ∧
     (generate_final_encode true true "b.png" "b.pdf").filesWritten = ["b.png", "b.pdf"]) := by
  refine ⟨(c6_generate_final_atomic true false "b.png" "b.pdf").2 (Or.inr rfl), ?_⟩
  have h := (c6_generate_final_atomic true true "b.png" "b.pdf").1
    ("b.png", "b.pdf") (by decide)
  exact ⟨by decide, h.2⟩

/-- C7: if a user photo path is supplied to `generate_final` and the
file exists, the `BackgroundSettings` have no effect on the render
plan: two requests identical except for their `background` field
produce the same plan, and (when the photo loads) the photo is fitted
by `_fit_image_to_zone` (cover mode) to the full content area — the
fitted image is exactly content-area sized — and pasted as the
background. -/
theorem c7_user_photo_overrides_background (r1 r2 : GenerateFinalRequest)
    (path : String) (photoLoadOk : Bool) (photo : PILImage)
    (hreq : r2 = { r1 with background := r2.background })
    (hpath : path ≠ "") :
    generate_final_plan r1 (some path) true photoLoadOk photo
      = generate_final_plan r2 (some path) true photoLoadOk photo ∧
    (photoLoadOk = true →
      (generate_final_plan r1 (some path) true photoLoadOk photo).backgroundAction
        = .userPhoto ⟨bookmark_size_px_final.1, bookmark_size_px_final.2⟩) := by
  have hcond : (decide (path ≠ "") && true) = true := by simp [hpath]
  constructor
  · cases r1
    cases r2
    simp only [GenerateFinalRequest.mk.injEq] at hreq
    obtain ⟨h1, h2, h3, h4, h5, h6, h7, _, h9, h10⟩ := hreq
    subst h1; subst h2; subst h3; subst h4; subst h5; subst h6; subst h7
    subst h9; subst h10
    simp only [generate_final_plan, background_stage, truthyPath]
    rw [hcond]
    simp
  · intro hok
    subst hok
    simp only [generate_final_plan, background_stage, truthyPath]
    rw [hcond]
    simp [fit_image_to_zone_size]

/-- Witness for C7: two concrete requests, identical except that the
second carries a solid `BackgroundSettings`, render to the same plan
when a user photo `"p.jpg"` exists; its background action is the
cover-fitted photo at full content size. -/
theorem c7_user_photo_overrides_background_witness :
    (generate_final_plan
        ⟨.warm, 3, ["#FF0000"], .horizontal, none, ['h', 'i'], none, none, none, false⟩
        (some "p.jpg") true true ⟨640, 480⟩
      = generate_final_plan
        ⟨.warm, 3, ["#FF0000"], .horizontal, none, ['h', 'i'], none,
          some ⟨.solid, some ⟨"#00FF00"⟩, none, none⟩, none, false⟩
        (some "p.jpg") true true ⟨640, 480⟩) ∧
    (generate_final_plan
        ⟨.warm, 3, ["#FF0000"], .horizontal, none, ['h', 'i'], none, none, none, false⟩
        (some "p.jpg") true true ⟨640, 480⟩).backgroundAction
      = .userPhoto ⟨bookmark_size_px_final.1, bookmark_size_px_final.2⟩ := by
  have h := c7_user_photo_overrides_background
    ⟨.warm, 3, ["#FF0000"], .horizontal, none, ['h', 'i'], none, none, none, false⟩
    ⟨.warm, 3, ["#FF0000"], .horizontal, none, ['h', 'i'], none,
      some ⟨.solid, some ⟨"#00FF00"⟩, none, none⟩, none, false⟩
    "p.jpg" true ⟨640, 480⟩ rfl (by decide)
  exact ⟨h.1, h.2 rfl⟩

/-! ## Preview generation (`generate_preview`) -/

/-- What `generate_preview` produces: the base image (whose dimensions
come from `settings.bookmark_size_px_preview`; the subsequent
`_apply_layout` and `_add_decorative_elements` calls draw through an
`ImageDraw` handle, which mutates pixels and never dimensions), the
decorative draw ops, and the `(width, height)` the call returns
alongside the saved file's path. -/
structure PreviewResult where
  image : PILImage
  decoOps : List (DrawOp String)
  width : ℕ
  height : ℕ
  deriving DecidableEq, Repr

/-- `BookmarkGenerator.generate_preview` (lines 249–312):
`width, height = settings.bookmark_size_px_preview`;
`Image.new("RGB", (width, height), colors[0])`; layout and decorations
drawn in place; returns the saved path with `(width, height)`.
(The `_apply_layout` draw calls are elided: no verified property
mentions them, and they cannot alter the image's size.) -/
def generate_preview (mood : MoodType) (complexity : ℕ) (colors : List String)
    (layout : LayoutType) : PreviewResult :=
  let width := bookmark_size_px_preview.1
  let height := bookmark_size_px_preview.2
  let image : PILImage := ⟨width, height⟩
  ⟨image, add_decorative_elements (width : ℤ) (height : ℤ) complexity colors,
   width, height⟩

/-- C9: `generate_preview` returns a buffer whose pixel dimensions are
exactly `⌊mm / 25.4 * dpi⌋` of the configured 60mm × 180mm size at
72 DPI — that is, 170 × 510 pixels — independent of mood, complexity,
colors and layout (`mood` and `layout` do not occur in the result's
dimensions at all; the result is the same constant for every input). -/
theorem c9_generate_preview_dims (mood : MoodType) (complexity : ℕ)
    (colors : List String) (layout : LayoutType) :
    (generate_preview mood complexity colors layout).image
        = ⟨(pyInt (mm_to_px BOOKMARK_WIDTH_MM PREVIEW_DPI)).toNat,
           (pyInt (mm_to_px BOOKMARK_HEIGHT_MM PREVIEW_DPI)).toNat⟩ ∧
    (generate_preview mood complexity colors layout).image = ⟨170, 510⟩ ∧
    (generate_preview mood complexity colors layout).width = 170 ∧
    (generate_preview mood complexity colors layout).height = 510 := by
  have hw : pyInt (mm_to_px BOOKMARK_WIDTH_MM PREVIEW_DPI) = 170 := by
    unfold pyInt mm_to_px BOOKMARK_WIDTH_MM PREVIEW_DPI
    rw [if_neg (by norm_num), Int.floor_eq_iff]
    norm_num
  have hh : pyInt (mm_to_px BOOKMARK_HEIGHT_MM PREVIEW_DPI) = 510 := by
    unfold pyInt mm_to_px BOOKMARK_HEIGHT_MM PREVIEW_DPI
    rw [if_neg (by norm_num), Int.floor_eq_iff]
    norm_num
  refine ⟨?_, ?_, ?_, ?_⟩ <;>
    simp [generate_preview, bookmark_size_px_preview, hw, hh]

end Shuqian
